import Mathlib

/-!
Verification development for the jlox tree-walking interpreter
(Rust crate: src/lib.rs, src/token (declared; see below), src/expr.rs,
src/stmt.rs, src/scanner.rs, src/parser.rs, src/interpreter.rs).

Shallow embedding conventions:
- Rust f64 is modelled as the exact rationals ℚ (Rat).  The operations the
  interpreter performs on numbers (+, -, *, /, comparisons, negation) are
  modelled by the corresponding exact operations; division by zero yields 0
  in ℚ where f64 yields infinity, and there is no NaN.  No claim settled in
  this file depends on rounding, infinities or NaN.
- Rc of RefCell of Environment is modelled as a heap (a list of environment
  records indexed by position) together with a current-environment index;
  allocation appends to the heap, mutation is replacement at an index, so
  aliased environments are shared exactly as in the Rust code.
- Fallible code returns a result variant type; host side effects (printing)
  are modelled as an output trace of values carried in the state.
- Loops and recursion are modelled with an explicit fuel parameter; a fuel
  of zero yields a timeout result, which corresponds to the execution not
  having finished (it never stands in for a source-level error).
-/

/-- Abbreviation used for field types inside inductives that also declare a
constructor named String. -/
abbrev Str := String

namespace token

/-- Modelled from the spec: src/lib.rs declares a module named token
(and src/parser.rs, src/interpreter.rs consume token.Token and
token.TokenType) but the file token.rs is not among the provided sources.
Reconstructed from the spec section 3 ("Token: kind (optionally carrying a
decoded number or string literal), text: raw lexeme, line: source line")
and from every use in the provided sources: the parser pattern-matches
TokenType.Number(..) and TokenType.String(..) as payload-carrying literal
kinds, calls Token.new(token_type, text, line), and reads fields
token_type, text and line; the interpreter reads a Number payload (f64)
and a String payload. -/
inductive TokenType where
  | LeftParen
  | RightParen
  | LeftBrace
  | RightBrace
  | Comma
  | Dot
  | Minus
  | Plus
  | Semicolon
  | Slash
  | Star
  | Bang
  | BangEqual
  | Equal
  | EqualEqual
  | Greater
  | GreaterEqual
  | Less
  | LessEqual
  | Identifier
  | String (s : Str)
  | Number (n : Rat)
  | And
  | Class
  | Else
  | False
  | Fun
  | For
  | If
  | Nil
  | Or
  | Print
  | Return
  | Super
  | This
  | True
  | Var
  | While
  | Eof
  deriving DecidableEq

/-- Modelled from the spec: the token record of the missing token.rs, with
the fields the provided sources read (token_type, text, line). -/
structure Token where
  token_type : TokenType
  text : Str
  line : Nat
  deriving DecidableEq

/-- Constructor used by parser.rs as Token.new(TokenType.True, "true", line). -/
def Token.new (token_type : TokenType) (text : Str) (line : Nat) : Token :=
  ⟨token_type, text, line⟩

end token

/-- Expression AST, from src/expr.rs (enum Expr).  Box is erased; the
operator tokens of LogicOr and LogicAnd are kept as in the source. -/
inductive Expr where
  | Binary (left : Expr) (operator : token.Token) (right : Expr)
  | Unary (operator : token.Token) (right : Expr)
  | Call (callee : Expr) (paren : token.Token) (args : List Expr)
  | Grouping (expr : Expr)
  | Literal (value : token.Token)
  | Variable (name : token.Token)
  | Assignment (name : token.Token) (value : Expr)
  | LogicOr (left : Expr) (operator : token.Token) (right : Expr)
  | LogicAnd (left : Expr) (operator : token.Token) (right : Expr)

/-- Statement AST, from src/stmt.rs (enum Stmt).  The Rust variant
Stmt::FunctionDeclaration(FunctionDeclaration) carries a struct; here the
struct's three fields are carried directly by the variant, and the struct
itself is defined separately below (FunctionDeclaration) for use by the
interpreter's Function value. -/
inductive Stmt where
  | Expression (expr : Expr)
  | FunctionDeclaration (name : token.Token) (params : List token.Token)
      (body : List Stmt)
  | Print (expr : Expr)
  | Return (keyword : token.Token) (value : Option Expr)
  | VariableDeclaration (name : token.Token) (initializer : Option Expr)
  | If (condition : Expr) (then_branch : Stmt) (else_branch : Option Stmt)
  | While (condition : Expr) (body : Stmt)
  | Block (stmts : List Stmt)

/-- The struct FunctionDeclaration of src/stmt.rs: name, ordered parameter
tokens, body statement list. -/
structure FunctionDeclaration where
  name : token.Token
  params : List token.Token
  body : List Stmt

/-- Error enum of src/lib.rs.  The FromUtf8Error and IO variants wrap host
error types never produced by the scanner, parser or interpreter; their
payloads are omitted here. -/
inductive Error where
  | Custom (msg : Str)
  | ParseError (line : Nat) (msg : Str)
  | FromUtf8Error
  | IOError
  | RuntimeError (line : Nat) (msg : Str)
  deriving DecidableEq

/-- Error.runtime of src/lib.rs: a RuntimeError carrying the token's line. -/
def Error.runtime (tok : token.Token) (message : Str) : Error :=
  Error.RuntimeError tok.line message

namespace interpreter

/-- NativeFunction of src/interpreter.rs.  The field function, a host
function pointer, is omitted from the record; its behaviour is modelled by
nativeImpl below. -/
structure NativeFunction where
  arity : Nat
  name : Str
  deriving DecidableEq

/-- Function of src/interpreter.rs: a user function value wraps only the
FunctionDeclaration.  Note that no environment is captured. -/
structure Function where
  declaration : FunctionDeclaration

/-- Function.arity of src/interpreter.rs. -/
def Function.arity (f : interpreter.Function) : Nat :=
  f.declaration.params.length

/-- Value enum of src/interpreter.rs: the runtime value model. -/
inductive Value where
  | String (s : Str)
  | Number (n : Rat)
  | Boolean (b : Bool)
  | Function (f : interpreter.Function)
  | NativeFunction (nf : interpreter.NativeFunction)
  | Nil

/-- Interpreter.is_truthy of src/interpreter.rs, arm for arm.  Note that
the source makes Function and NativeFunction values falsy. -/
def isTruthy : Value → Bool
  | .String _ => true
  | .Number _ => true
  | .Boolean b => b
  | .Function _ => false
  | .NativeFunction _ => false
  | .Nil => false

end interpreter

/-- Result of a fallible computation, modelling Result of src/lib.rs.
The ok and err constructors are the two Rust variants.  timeout is the
fuel-exhaustion marker of this embedding (the computation did not finish
within the given fuel; it models non-termination, never a source error).
The ret constructor is modelled from the spec: the spec (sections 5 and 9)
requires a non-local early-exit signal carrying an optional value for
return statements, threaded through the statement-execution result type;
src/interpreter.rs implements no such variant (and no visit_return at
all), so executing a Return statement below produces this spec-modelled
signal, which the question-mark propagation of the source then passes
through unchanged. -/
inductive Res (α : Type) where
  | ok (a : α)
  | err (e : Error)
  | ret (v : Option interpreter.Value)
  | timeout

namespace interpreter

/-! Structural equality, modelling the derived PartialEq instances used by
the EqualEqual arm of visit_binary.  Rust f64 equality is modelled by Rat
equality (no NaN in the model); NativeFunction equality in Rust also
compares the host function pointer, which is omitted here together with
that field. -/

mutual

/-- Derived PartialEq for expr.rs Expr. -/
def exprEq : Expr → Expr → Bool
  | .Binary l1 o1 r1, .Binary l2 o2 r2 =>
      exprEq l1 l2 && decide (o1 = o2) && exprEq r1 r2
  | .Unary o1 r1, .Unary o2 r2 => decide (o1 = o2) && exprEq r1 r2
  | .Call c1 p1 a1, .Call c2 p2 a2 =>
      exprEq c1 c2 && decide (p1 = p2) && exprListEq a1 a2
  | .Grouping e1, .Grouping e2 => exprEq e1 e2
  | .Literal v1, .Literal v2 => decide (v1 = v2)
  | .Variable n1, .Variable n2 => decide (n1 = n2)
  | .Assignment n1 v1, .Assignment n2 v2 => decide (n1 = n2) && exprEq v1 v2
  | .LogicOr l1 o1 r1, .LogicOr l2 o2 r2 =>
      exprEq l1 l2 && decide (o1 = o2) && exprEq r1 r2
  | .LogicAnd l1 o1 r1, .LogicAnd l2 o2 r2 =>
      exprEq l1 l2 && decide (o1 = o2) && exprEq r1 r2
  | _, _ => false

/-- Elementwise equality of expression lists. -/
def exprListEq : List Expr → List Expr → Bool
  | [], [] => true
  | a :: as_, b :: bs => exprEq a b && exprListEq as_ bs
  | _, _ => false

end

/-- Equality of optional expressions. -/
def optExprEq : Option Expr → Option Expr → Bool
  | none, none => true
  | some a, some b => exprEq a b
  | _, _ => false

mutual

/-- Derived PartialEq for stmt.rs Stmt. -/
def stmtEq : Stmt → Stmt → Bool
  | .Expression e1, .Expression e2 => exprEq e1 e2
  | .FunctionDeclaration n1 p1 b1, .FunctionDeclaration n2 p2 b2 =>
      decide (n1 = n2) && decide (p1 = p2) && stmtListEq b1 b2
  | .Print e1, .Print e2 => exprEq e1 e2
  | .Return k1 v1, .Return k2 v2 => decide (k1 = k2) && optExprEq v1 v2
  | .VariableDeclaration n1 i1, .VariableDeclaration n2 i2 =>
      decide (n1 = n2) && optExprEq i1 i2
  | .If c1 t1 e1, .If c2 t2 e2 =>
      exprEq c1 c2 && stmtEq t1 t2 && optStmtEq e1 e2
  | .While c1 b1, .While c2 b2 => exprEq c1 c2 && stmtEq b1 b2
  | .Block s1, .Block s2 => stmtListEq s1 s2
  | _, _ => false

/-- Equality of optional statements. -/
def optStmtEq : Option Stmt → Option Stmt → Bool
  | none, none => true
  | some a, some b => stmtEq a b
  | _, _ => false

/-- Elementwise equality of statement lists. -/
def stmtListEq : List Stmt → List Stmt → Bool
  | [], [] => true
  | a :: as_, b :: bs => stmtEq a b && stmtListEq as_ bs
  | _, _ => false

end

/-- Derived PartialEq for stmt.rs FunctionDeclaration. -/
def fdEq (a b : FunctionDeclaration) : Bool :=
  decide (a.name = b.name) && decide (a.params = b.params)
    && stmtListEq a.body b.body

/-- Derived PartialEq for interpreter.rs Value, used by the EqualEqual arm
of visit_binary (left == right). -/
def valueEq : Value → Value → Bool
  | .String a, .String b => a = b
  | .Number a, .Number b => decide (a = b)
  | .Boolean a, .Boolean b => a = b
  | .Function a, .Function b => fdEq a.declaration b.declaration
  | .NativeFunction a, .NativeFunction b => decide (a = b)
  | .Nil, .Nil => true
  | _, _ => false

/-! The environment model.  Rust Environment is a struct with an optional
Rc RefCell link to the enclosing scope and a HashMap store; Env is
Rc RefCell Environment.  An Rc RefCell graph is modelled as a heap: a list
of environment records, addressed by list position; Rc.clone is copying an
address, RefCell mutation is List.set at an address.  The HashMap store is
modelled as an association list whose insert replaces an existing key in
place and otherwise appends (lookups and updates agree with HashMap). -/

/-- One Environment record of src/interpreter.rs: optional enclosing
address plus the local store. -/
structure EnvData where
  enclosing : Option Nat
  store : List (Str × Value)

/-- The heap of allocated environments; addresses are list positions. -/
abbrev Heap := List EnvData

/-- HashMap.get on the association-list store. -/
def storeGet : List (Str × Value) → Str → Option Value
  | [], _ => none
  | (k, v) :: rest, key => if k = key then some v else storeGet rest key

/-- HashMap.contains_key on the association-list store. -/
def storeContainsB (st : List (Str × Value)) (k : Str) : Bool :=
  (storeGet st k).isSome

/-- HashMap.insert on the association-list store: replace the binding in
place when the key exists, append otherwise. -/
def storeInsert : List (Str × Value) → Str → Value → List (Str × Value)
  | [], k, v => [(k, v)]
  | (k₀, v₀) :: rest, k, v =>
      if k₀ = k then (k, v) :: rest else (k₀, v₀) :: storeInsert rest k v

/-- The keys of a store, used to state that assignment creates no binding. -/
def storeKeys (st : List (Str × Value)) : List Str := st.map Prod.fst

/-- Environment.get of src/interpreter.rs: look the name up in the local
store, else recurse into the enclosing scope, else RuntimeError
"Undefined variable: name".  The fuel bounds the walk along the chain
(the Rc graph built by the interpreter is finite and acyclic, so a fuel of
heap length + 1 always suffices); address lookup failure cannot occur for
addresses handed out by allocation and is mapped to a Custom error. -/
def envGet : Nat → Heap → Nat → token.Token → Res Value
  | 0, _, _, _ => Res.timeout
  | fuel + 1, h, id, name =>
    match h.get? id with
    | none => Res.err (Error.Custom ("invalid environment reference"))
    | some sc =>
      match storeGet sc.store name.text with
      | some v => Res.ok v
      | none =>
        match sc.enclosing with
        | some e => envGet fuel h e name
        | none =>
            Res.err (Error.RuntimeError name.line
              ("Undefined variable: " ++ name.text))

/-- Environment.assign of src/interpreter.rs: if the local store contains
the key, insert the new value there and return it; else recurse into the
enclosing scope; else RuntimeError "Undefined variable name" (note: no
colon in this message, unlike get).  Fuel as in envGet. -/
def envAssign : Nat → Heap → Nat → token.Token → Value → Res Value × Heap
  | 0, h, _, _, _ => (Res.timeout, h)
  | fuel + 1, h, id, name, v =>
    match h.get? id with
    | none => (Res.err (Error.Custom ("invalid environment reference")), h)
    | some sc =>
      if storeContainsB sc.store name.text then
        (Res.ok v, h.set id ⟨sc.enclosing, storeInsert sc.store name.text v⟩)
      else
        match sc.enclosing with
        | some e => envAssign fuel h e name v
        | none =>
            (Res.err (Error.RuntimeError name.line
              ("Undefined variable " ++ name.text)), h)

/-- Environment.define of src/interpreter.rs: insert into the local store
of the addressed environment only. -/
def envDefine (h : Heap) (id : Nat) (name : token.Token) (v : Value) : Heap :=
  match h.get? id with
  | some sc => h.set id ⟨sc.enclosing, storeInsert sc.store name.text v⟩
  | none => h

/-- Interpreter state: the heap of environments, the current-environment
address (the env field of struct Interpreter), and the trace of values the
print statement has written (stdout is modelled as this list; rendering to
text via Display is outside the claims and not modelled). -/
structure State where
  heap : Heap
  env : Nat
  output : List Value

/-- Behaviour of the host function pointers stored in native functions.
The only native the interpreter registers is clock, whose Rust body reads
the host clock (SystemTime.now); real time is not statable, so the model
returns the constant Number 0.  No claim in this file calls a native
function. -/
def nativeImpl (nf : NativeFunction) (_args : List Value) : Value :=
  if nf.name = "clock" then Value.Number 0 else Value.Nil

/-- Binding of parameters into a fresh call store, from Function.call of
src/interpreter.rs: params.iter().enumerate().for_each(define param
args[i]), i.e. insertions into an initially empty store, left to right.
The caller has already checked args.len() = params.len(). -/
def bindParams (params : List token.Token) (args : List Value) :
    List (Str × Value) :=
  (params.zip args).foldl (fun st pa => storeInsert st pa.1.text pa.2) []

/-- The argument-evaluation loop of visit_call: args.iter().map(evaluate)
.collect::<Result<Vec<_>>>(), which evaluates left to right and stops at
the first non-ok result.  Parametrised by the expression evaluator. -/
def evalArgsWith (ev : Expr → State → Res Value × State) :
    List Expr → State → Res (List Value) × State
  | [], s => (Res.ok [], s)
  | e :: rest, s =>
    match ev e s with
    | (Res.ok v, s₁) =>
      match evalArgsWith ev rest s₁ with
      | (Res.ok vs, s₂) => (Res.ok (v :: vs), s₂)
      | (Res.err er, s₂) => (Res.err er, s₂)
      | (Res.ret r, s₂) => (Res.ret r, s₂)
      | (Res.timeout, s₂) => (Res.timeout, s₂)
    | (Res.err er, s₁) => (Res.err er, s₁)
    | (Res.ret r, s₁) => (Res.ret r, s₁)
    | (Res.timeout, s₁) => (Res.timeout, s₁)

/-- The statement loop of Interpreter.interpret and of execute_block:
stmts.iter().try_for_each(execute), stopping at the first non-ok result.
Parametrised by the statement executor. -/
def execStmtsWith (ex : Stmt → State → Res Unit × State) :
    List Stmt → State → Res Unit × State
  | [], s => (Res.ok (), s)
  | st :: rest, s =>
    match ex st s with
    | (Res.ok _, s₁) => execStmtsWith ex rest s₁
    | (r, s₁) => (r, s₁)

/-- Interpreter.execute_block of src/interpreter.rs: save the current
environment address, allocate the given environment record as the new
current environment, run the statements, then restore the saved address
unconditionally (the source binds the loop result to a local, restores
self.env, and only then returns the result), and return the loop result. -/
def executeBlockWith (ex : Stmt → State → Res Unit × State)
    (stmts : List Stmt) (envd : EnvData) (s : State) : Res Unit × State :=
  let prev := s.env
  let id := s.heap.length
  let s₁ : State := { s with heap := s.heap ++ [envd], env := id }
  let r := execStmtsWith ex stmts s₁
  (r.1, { r.2 with env := prev })

/-- Function.call of src/interpreter.rs: check the argument count against
the arity, build a fresh environment whose enclosing link is the
interpreter's CURRENT environment (interpreter.env.clone() at call time;
no declaration-time environment exists in the Function value), bind the
parameters into it, execute the body as a block, propagate any non-ok
result of the body, and otherwise return Ok(Value.Nil) - the only value a
successful user-function call can produce. -/
def Function.callWith (ex : Stmt → State → Res Unit × State)
    (f : interpreter.Function) (args : List Value) (paren : token.Token)
    (s : State) : Res Value × State :=
  if args.length ≠ f.arity then
    (Res.err (Error.runtime paren
      ("Expected " ++ toString f.arity ++ " arguments but got "
        ++ toString args.length ++ " arguments")), s)
  else
    let envd : EnvData := ⟨some s.env, bindParams f.declaration.params args⟩
    let b := executeBlockWith ex f.declaration.body envd s
    (match b.1 with
      | Res.ok _ => Res.ok Value.Nil
      | Res.err er => Res.err er
      | Res.ret r => Res.ret r
      | Res.timeout => Res.timeout, b.2)

/-- The operator dispatch of visit_binary of src/interpreter.rs, arm for
arm, applied after both operands have been evaluated.  BangEqual has no
arm in the source and therefore falls through to "Unknown binary
operator". -/
def binaryOp (operator : token.Token) (l r : Value) : Res Value :=
  match operator.token_type with
  | .Minus =>
    match l, r with
    | Value.Number a, Value.Number b => Res.ok (Value.Number (a - b))
    | _, _ => Res.err (Error.runtime operator ("Operands must be numbers"))
  | .Plus =>
    match l, r with
    | Value.Number a, Value.Number b => Res.ok (Value.Number (a + b))
    | Value.String a, Value.String b => Res.ok (Value.String (a ++ b))
    | _, _ =>
        Res.err (Error.runtime operator ("Operands must be numbers or strings"))
  | .Star =>
    match l, r with
    | Value.Number a, Value.Number b => Res.ok (Value.Number (a * b))
    | _, _ => Res.err (Error.runtime operator ("Operands must be numbers"))
  | .Slash =>
    match l, r with
    | Value.Number a, Value.Number b => Res.ok (Value.Number (a / b))
    | _, _ => Res.err (Error.runtime operator ("Operands must be numbers"))
  | .Greater =>
    match l, r with
    | Value.Number a, Value.Number b => Res.ok (Value.Boolean (decide (a > b)))
    | _, _ => Res.err (Error.runtime operator ("Operands must be numbers"))
  | .GreaterEqual =>
    match l, r with
    | Value.Number a, Value.Number b => Res.ok (Value.Boolean (decide (a ≥ b)))
    | _, _ => Res.err (Error.runtime operator ("Operands must be numbers"))
  | .Less =>
    match l, r with
    | Value.Number a, Value.Number b => Res.ok (Value.Boolean (decide (a < b)))
    | _, _ => Res.err (Error.runtime operator ("Operands must be numbers"))
  | .LessEqual =>
    match l, r with
    | Value.Number a, Value.Number b => Res.ok (Value.Boolean (decide (a ≤ b)))
    | _, _ => Res.err (Error.runtime operator ("Operands must be numbers"))
  | .EqualEqual => Res.ok (Value.Boolean (valueEq l r))
  | _ => Res.err (Error.runtime operator ("Unknown binary operator"))

/-- One fuel level of the interpreter: the expression visitor (evalE,
the expr.Visitor impl) and the statement visitor (execS, the stmt.Visitor
impl) of src/interpreter.rs. -/
structure Interp where
  evalE : Expr → State → Res Value × State
  execS : Stmt → State → Res Unit × State

/-- The successor level of the fuel-indexed interpreter: each visitor arm
follows the corresponding visit_ method of src/interpreter.rs, with every
recursive evaluate/execute call delegated to the previous level I. -/
def interpSucc (I : Interp) : Interp where
  evalE := fun e s =>
    match e with
    | .Literal value =>
      match value.token_type with
      | .Nil => (Res.ok Value.Nil, s)
      | .False => (Res.ok (Value.Boolean false), s)
      | .True => (Res.ok (Value.Boolean true), s)
      | .Number n => (Res.ok (Value.Number n), s)
      | .String str => (Res.ok (Value.String str), s)
      | _ => (Res.err (Error.runtime value ("Unknown literal type")), s)
    | .Unary operator right =>
      match I.evalE right s with
      | (Res.ok rv, s₁) =>
        match operator.token_type with
        | .Minus =>
          match rv with
          | Value.Number n => (Res.ok (Value.Number (-n)), s₁)
          | _ => (Res.err (Error.runtime operator ("Operand must be a number")),
              s₁)
        | .Bang => (Res.ok (Value.Boolean (isTruthy rv)), s₁)
        | _ => (Res.err (Error.runtime operator ("Unknown unary operator")), s₁)
      | (r, s₁) => (r, s₁)
    | .Call callee paren args =>
      match I.evalE callee s with
      | (Res.ok cv, s₁) =>
        match evalArgsWith I.evalE args s₁ with
        | (Res.ok avs, s₂) =>
          match cv with
          | Value.NativeFunction nf =>
            if avs.length ≠ nf.arity then
              (Res.err (Error.runtime paren
                ("Expected " ++ toString nf.arity ++ " arguments but got "
                  ++ toString avs.length ++ " arguments")), s₂)
            else (Res.ok (nativeImpl nf avs), s₂)
          | Value.Function f =>
            if avs.length ≠ f.arity then
              (Res.err (Error.runtime paren
                ("Expected " ++ toString f.arity ++ " arguments but got "
                  ++ toString avs.length ++ " arguments")), s₂)
            else Function.callWith I.execS f avs paren s₂
          | _ =>
            (Res.err (Error.runtime paren
              "Can only call functions and classes"), s₂)
        | (Res.err er, s₂) => (Res.err er, s₂)
        | (Res.ret r, s₂) => (Res.ret r, s₂)
        | (Res.timeout, s₂) => (Res.timeout, s₂)
      | (r, s₁) => (r, s₁)
    | .Grouping inner => I.evalE inner s
    | .Binary left operator right =>
      match I.evalE left s with
      | (Res.ok lv, s₁) =>
        match I.evalE right s₁ with
        | (Res.ok rv, s₂) => (binaryOp operator lv rv, s₂)
        | (r, s₂) => (r, s₂)
      | (r, s₁) => (r, s₁)
    | .Variable name => (envGet (s.heap.length + 1) s.heap s.env name, s)
    | .Assignment name value =>
      match I.evalE value s with
      | (Res.ok v, s₁) =>
        match envAssign (s₁.heap.length + 1) s₁.heap s₁.env name v with
        | (r, h) => (r, { s₁ with heap := h })
      | (r, s₁) => (r, s₁)
    | .LogicOr left _operator right =>
      match I.evalE left s with
      | (Res.ok v, s₁) =>
        if isTruthy v then (Res.ok v, s₁) else I.evalE right s₁
      | (r, s₁) => (r, s₁)
    | .LogicAnd left _operator right =>
      match I.evalE left s with
      | (Res.ok v, s₁) =>
        if isTruthy v then I.evalE right s₁ else (Res.ok v, s₁)
      | (r, s₁) => (r, s₁)
  execS := fun st s =>
    match st with
    | .Expression e =>
      match I.evalE e s with
      | (Res.ok _, s₁) => (Res.ok (), s₁)
      | (Res.err er, s₁) => (Res.err er, s₁)
      | (Res.ret r, s₁) => (Res.ret r, s₁)
      | (Res.timeout, s₁) => (Res.timeout, s₁)
    | .Print e =>
      match I.evalE e s with
      | (Res.ok v, s₁) => (Res.ok (), { s₁ with output := s₁.output ++ [v] })
      | (Res.err er, s₁) => (Res.err er, s₁)
      | (Res.ret r, s₁) => (Res.ret r, s₁)
      | (Res.timeout, s₁) => (Res.timeout, s₁)
    | .FunctionDeclaration name params body =>
      let fv := Value.Function ⟨⟨name, params, body⟩⟩
      (Res.ok (), { s with heap := envDefine s.heap s.env name fv })
    | .Return _keyword value =>
      match value with
      | none => (Res.ret none, s)
      | some e =>
        match I.evalE e s with
        | (Res.ok v, s₁) => (Res.ret (some v), s₁)
        | (Res.err er, s₁) => (Res.err er, s₁)
        | (Res.ret r, s₁) => (Res.ret r, s₁)
        | (Res.timeout, s₁) => (Res.timeout, s₁)
    | .VariableDeclaration name initializer =>
      match initializer with
      | some ie =>
        match I.evalE ie s with
        | (Res.ok v, s₁) =>
            (Res.ok (), { s₁ with heap := envDefine s₁.heap s₁.env name v })
        | (Res.err er, s₁) => (Res.err er, s₁)
        | (Res.ret r, s₁) => (Res.ret r, s₁)
        | (Res.timeout, s₁) => (Res.timeout, s₁)
      | none =>
        (Res.ok (), { s with heap := envDefine s.heap s.env name Value.Nil })
    | .If condition then_branch else_branch =>
      match I.evalE condition s with
      | (Res.ok cv, s₁) =>
        if isTruthy cv then I.execS then_branch s₁
        else
          match else_branch with
          | some eb => I.execS eb s₁
          | none => (Res.ok (), s₁)
      | (Res.err er, s₁) => (Res.err er, s₁)
      | (Res.ret r, s₁) => (Res.ret r, s₁)
      | (Res.timeout, s₁) => (Res.timeout, s₁)
    | .While condition body =>
      match I.evalE condition s with
      | (Res.ok cv, s₁) =>
        if isTruthy cv then
          match I.execS body s₁ with
          | (Res.ok _, s₂) => I.execS (Stmt.While condition body) s₂
          | (r, s₂) => (r, s₂)
        else (Res.ok (), s₁)
      | (Res.err er, s₁) => (Res.err er, s₁)
      | (Res.ret r, s₁) => (Res.ret r, s₁)
      | (Res.timeout, s₁) => (Res.timeout, s₁)
    | .Block stmts =>
      executeBlockWith I.execS stmts ⟨some s.env, []⟩ s

/-- The fuel-indexed interpreter; level zero times out immediately. -/
def interp : Nat → Interp
  | 0 => ⟨fun _ s => (Res.timeout, s), fun _ s => (Res.timeout, s)⟩
  | n + 1 => interpSucc (interp n)

/-- The global environment built by Interpreter.new of src/interpreter.rs:
one scope holding the native clock binding. -/
def initHeap : Heap :=
  [⟨none, [("clock", Value.NativeFunction ⟨0, "clock"⟩)]⟩]

/-- The freshly constructed interpreter state. -/
def initState : State := ⟨initHeap, 0, []⟩

/-- Interpreter.interpret of src/interpreter.rs run on a fresh interpreter:
execute the statements in order, stopping at the first non-ok result. -/
def interpret (fuel : Nat) (stmts : List Stmt) : Res Unit × State :=
  execStmtsWith (interp fuel).execS stmts initState

end interpreter

namespace scanner

/-! Model of src/scanner.rs.  This module has its own private TokenType and
Token, distinct from the token module used by the parser and interpreter:
its TokenType carries no payloads and its Token stores literal payloads as
Option of String (the code notes for numbers: "NOTE: Not parsed into a
number").  Character loops are modelled with a fuel of source length + 1,
which is always sufficient because every iteration advances the current
index by at least one and the loops stop at or before end of input. -/

/-- TokenType enum of src/scanner.rs (payload-free). -/
inductive TokenType where
  | LeftParen
  | RightParen
  | LeftBrace
  | RightBrace
  | Comma
  | Dot
  | Minus
  | Plus
  | Semicolon
  | Slash
  | Star
  | Bang
  | BangEqual
  | Equal
  | EqualEqual
  | Greater
  | GreaterEqual
  | Less
  | LessEqual
  | Identifier
  | String
  | Number
  | And
  | Class
  | Else
  | False
  | Fun
  | For
  | If
  | Nil
  | Or
  | Print
  | Return
  | Super
  | This
  | True
  | Var
  | While
  | Eof
  deriving DecidableEq

/-- Token struct of src/scanner.rs: kind, raw lexeme, optional string
literal payload, line. -/
structure Token where
  token_type : TokenType
  lexeme : Str
  literal : Option Str
  line : Nat
  deriving DecidableEq

/-- Scanner struct of src/scanner.rs.  The keywords HashMap, built once in
Scanner.new from a fixed list, is modelled by the function keywordLookup
below instead of a field. -/
structure Scanner where
  source : List Char
  tokens : List Token
  start : Nat
  current : Nat
  line : Nat

/-- The fixed keyword table built in Scanner.new. -/
def keywordLookup : Str → Option TokenType
  | "and" => some .And
  | "class" => some .Class
  | "else" => some .Else
  | "false" => some .False
  | "for" => some .For
  | "fun" => some .Fun
  | "if" => some .If
  | "nil" => some .Nil
  | "or" => some .Or
  | "print" => some .Print
  | "return" => some .Return
  | "super" => some .Super
  | "this" => some .This
  | "true" => some .True
  | "var" => some .Var
  | "while" => some .While
  | _ => none

/-- Scanner.new: the source as a character list, every counter zero
(struct update syntax with Default in the source). -/
def Scanner.new (source : Str) : Scanner :=
  ⟨source.toList, [], 0, 0, 0⟩

/-- Indexing self.source[i].  Rust panics when i is out of range; the
scanner only indexes in range (advance is guarded by at_end), so the
default value is unreachable on real runs. -/
def chAt (source : List Char) (i : Nat) : Char :=
  source.getD i '\x00'

/-- Scanner.at_end. -/
def Scanner.atEnd (sc : Scanner) : Bool :=
  sc.current ≥ sc.source.length

/-- Scanner.advance: read the current character and move past it. -/
def Scanner.advance (sc : Scanner) : Char × Scanner :=
  (chAt sc.source sc.current, { sc with current := sc.current + 1 })

/-- Scanner.match_char: one-character lookahead with conditional consume. -/
def Scanner.matchChar (sc : Scanner) (expected : Char) : Bool × Scanner :=
  if sc.atEnd then (false, sc)
  else if chAt sc.source sc.current ≠ expected then (false, sc)
  else (true, { sc with current := sc.current + 1 })

/-- Scanner.peek. -/
def Scanner.peek (sc : Scanner) : Char :=
  if sc.atEnd then '\x00' else chAt sc.source sc.current

/-- Scanner.peek_next. -/
def Scanner.peekNext (sc : Scanner) : Char :=
  if sc.current + 1 ≥ sc.source.length then '\x00'
  else chAt sc.source (sc.current + 1)

/-- The slice self.source[a..b] as a string. -/
def sliceStr (source : List Char) (a b : Nat) : Str :=
  String.mk ((source.drop a).take (b - a))

/-- Scanner.add_token: push a token whose lexeme is source[start..current]. -/
def Scanner.addToken (sc : Scanner) (tt : TokenType) (lit : Option Str) :
    Scanner :=
  { sc with tokens :=
      sc.tokens ++ [⟨tt, sliceStr sc.source sc.start sc.current, lit, sc.line⟩] }

/-- The while loop of Scanner.string: consume characters until the closing
quote or end of input, counting newlines. -/
def stringLoop : Nat → Scanner → Scanner
  | 0, sc => sc
  | fuel + 1, sc =>
    if sc.peek ≠ '\x22' ∧ ¬sc.atEnd then
      let sc₁ := if sc.peek = '\n' then { sc with line := sc.line + 1 } else sc
      stringLoop fuel (sc₁.advance).2
    else sc

/-- Scanner.string of src/scanner.rs.  When input ends before a closing
quote the source prints "Unterminated string" to stderr (eprintln) and
returns: no token is pushed and no error value exists (scan_tokens has no
error channel at all), which this model renders as returning the scanner
unchanged.  Otherwise it consumes the closing quote and pushes a String
token whose literal payload is the text between the quotes. -/
def Scanner.string (sc : Scanner) : Scanner :=
  let sc₁ := stringLoop (sc.source.length + 1) sc
  if sc₁.atEnd then sc₁
  else
    let sc₂ := (sc₁.advance).2
    let lit := sliceStr sc₂.source (sc₂.start + 1) (sc₂.current - 1)
    sc₂.addToken .String (some lit)

/-- The digit-consuming loops of Scanner.number. -/
def digitsLoop : Nat → Scanner → Scanner
  | 0, sc => sc
  | fuel + 1, sc =>
    if sc.peek.isDigit then digitsLoop fuel (sc.advance).2 else sc

/-- Scanner.number of src/scanner.rs: a run of digits, an optional dot
followed by a further run of digits, then a Number token whose literal
payload is the RAW LEXEME STRING - the source marks this with
"NOTE: Not parsed into a number", and the Token type has no numeric
payload field at all. -/
def Scanner.number (sc : Scanner) : Scanner :=
  let sc₁ := digitsLoop (sc.source.length + 1) sc
  let sc₂ :=
    if sc₁.peek = '.' ∧ (sc₁.peekNext).isDigit then
      digitsLoop (sc₁.source.length + 1) (sc₁.advance).2
    else sc₁
  let num := sliceStr sc₂.source sc₂.start sc₂.current
  sc₂.addToken .Number (some num)

/-- The alphanumeric loop of Scanner.identifier.  Rust char
is_alphanumeric is Unicode-aware; Char.isAlphanum covers the ASCII
subset, which is all the claims exercise. -/
def identLoop : Nat → Scanner → Scanner
  | 0, sc => sc
  | fuel + 1, sc =>
    if sc.peek.isAlphanum then identLoop fuel (sc.advance).2 else sc

/-- Scanner.identifier of src/scanner.rs: consume the identifier, then
substitute a keyword kind when the text is in the keyword table. -/
def Scanner.identifier (sc : Scanner) : Scanner :=
  let sc₁ := identLoop (sc.source.length + 1) sc
  let text := sliceStr sc₁.source sc₁.start sc₁.current
  sc₁.addToken ((keywordLookup text).getD .Identifier) none

/-- The line-comment loop of the slash arm of scan_token. -/
def commentLoop : Nat → Scanner → Scanner
  | 0, sc => sc
  | fuel + 1, sc =>
    if sc.peek ≠ '\n' ∧ ¬sc.atEnd then commentLoop fuel (sc.advance).2 else sc

/-- Scanner.scan_token of src/scanner.rs, arm for arm.  The catch-all arm
of the source is unimplemented! (a panic), modelled as none. -/
def Scanner.scanToken (sc : Scanner) : Option Scanner :=
  let (c, sc₀) := sc.advance
  match c with
  | '(' => some (sc₀.addToken .LeftParen none)
  | ')' => some (sc₀.addToken .RightParen none)
  | '{' => some (sc₀.addToken .LeftBrace none)
  | '}' => some (sc₀.addToken .RightBrace none)
  | ',' => some (sc₀.addToken .Comma none)
  | '.' => some (sc₀.addToken .Dot none)
  | '-' => some (sc₀.addToken .Minus none)
  | '+' => some (sc₀.addToken .Plus none)
  | ';' => some (sc₀.addToken .Semicolon none)
  | '*' => some (sc₀.addToken .Star none)
  | '!' =>
    let (m, sc₁) := sc₀.matchChar '='
    some (if m then sc₁.addToken .BangEqual none else sc₁.addToken .Bang none)
  | '=' =>
    let (m, sc₁) := sc₀.matchChar '='
    some (if m then sc₁.addToken .EqualEqual none else sc₁.addToken .Equal none)
  | '>' =>
    let (m, sc₁) := sc₀.matchChar '='
    some (if m then sc₁.addToken .GreaterEqual none
      else sc₁.addToken .Greater none)
  | '<' =>
    let (m, sc₁) := sc₀.matchChar '='
    some (if m then sc₁.addToken .LessEqual none else sc₁.addToken .Less none)
  | '/' =>
    let (m, sc₁) := sc₀.matchChar '/'
    some (if m then commentLoop (sc₁.source.length + 1) sc₁
      else sc₁.addToken .Slash none)
  | '\x22' => some sc₀.string
  | ' ' => some sc₀
  | '\r' => some sc₀
  | '\t' => some sc₀
  | '\n' => some { sc₀ with line := sc₀.line + 1 }
  | c =>
    if c.isDigit then some sc₀.number
    else if c.isAlpha then some sc₀.identifier
    else none

/-- The scan loop of Scanner.scan_tokens: while not at end, reset start
and scan one token. -/
def scanLoop : Nat → Scanner → Option Scanner
  | 0, sc => some sc
  | fuel + 1, sc =>
    if sc.atEnd then some sc
    else
      match Scanner.scanToken { sc with start := sc.current } with
      | some sc₁ => scanLoop fuel sc₁
      | none => none

/-- Scanner.scan_tokens of src/scanner.rs run on a fresh scanner: scan the
whole source and append the synthetic Eof token.  The result is none
exactly when the source panic (unimplemented!) is reached.  Note the
return type: a token list with no error component. -/
def scanTokens (source : Str) : Option (List Token) :=
  let sc := Scanner.new source
  match scanLoop (sc.source.length + 1) sc with
  | some sc₁ => some (sc₁.tokens ++ [⟨.Eof, "", none, sc₁.line⟩])
  | none => none

end scanner

namespace parser

/-! Model of src/parser.rs.  The parser consumes the token module's Token
type (the type with literal payloads); its recursion is modelled with a
fuel level for the rule backedges (block body to declaration, statement
body of for/if/while, assignment right-hand side, unary operand, and
parenthesised group back to expression), while the one-directional rule
chain declaration -> statement -> ... -> primary sits inside a single
level.  The iterative while-match loops of the binary-operator levels use
a token-count fuel, sufficient because every iteration consumes at least
the operator token. -/

/-- Parser struct of src/parser.rs: the token slice and current index. -/
structure Parser where
  tokens : List token.Token
  current : Nat

/-- Indexing self.tokens[i].clone().  Rust panics when i is out of range;
token lists produced by the scanner end in Eof, keeping every access of a
real run in range (except via previous at index 0, see previousTok). -/
def tokAt (ts : List token.Token) (i : Nat) : token.Token :=
  ts.getD i ⟨token.TokenType.Eof, "", 0⟩

/-- Parser.peek. -/
def peekTok (p : Parser) : token.Token :=
  tokAt p.tokens p.current

/-- Parser.previous: self.tokens[self.current - 1].  With current = 0 the
Rust subtraction on usize panics; Nat subtraction yields index 0 here, a
state no theorem below relies on. -/
def previousTok (p : Parser) : token.Token :=
  tokAt p.tokens (p.current - 1)

/-- Parser.at_end: matches!(peek().token_type, Eof). -/
def atEndP (p : Parser) : Bool :=
  match (peekTok p).token_type with
  | .Eof => true
  | _ => false

/-- Parser.advance: step over the current token unless at end, then return
previous. -/
def advanceTok (p : Parser) : token.Token × Parser :=
  let p₁ := if atEndP p then p else { p with current := p.current + 1 }
  (previousTok p₁, p₁)

/-- Parser.error: a ParseError carrying previous().line. -/
def perror (p : Parser) (msg : Str) : Error :=
  Error.ParseError (previousTok p).line msg

/-- The match_next! macro of src/parser.rs: if the next token's kind
matches the pattern, advance and yield true. -/
def matchNext (pat : token.TokenType → Bool) (p : Parser) : Bool × Parser :=
  if pat (peekTok p).token_type then (true, (advanceTok p).2) else (false, p)

/-- The consume_next! macro of src/parser.rs: advance over a token of the
expected kind or produce a ParseError with the given message. -/
def consumeNext (pat : token.TokenType → Bool) (msg : Str) (p : Parser) :
    Res token.Token × Parser :=
  if pat (peekTok p).token_type then
    let (t, p₁) := advanceTok p
    (Res.ok t, p₁)
  else (Res.err (perror p msg), p)

/-- The rendering behind format!("Expect expression found: {:?}",
token_type), i.e. the derived Debug of the token module's TokenType.
For the payload-carrying kinds Rust prints the f64/String payload in
Debug form; those arms are approximated (no claim exercises them). -/
def dbgTokenType : token.TokenType → Str
  | .LeftParen => "LeftParen"
  | .RightParen => "RightParen"
  | .LeftBrace => "LeftBrace"
  | .RightBrace => "RightBrace"
  | .Comma => "Comma"
  | .Dot => "Dot"
  | .Minus => "Minus"
  | .Plus => "Plus"
  | .Semicolon => "Semicolon"
  | .Slash => "Slash"
  | .Star => "Star"
  | .Bang => "Bang"
  | .BangEqual => "BangEqual"
  | .Equal => "Equal"
  | .EqualEqual => "EqualEqual"
  | .Greater => "Greater"
  | .GreaterEqual => "GreaterEqual"
  | .Less => "Less"
  | .LessEqual => "LessEqual"
  | .Identifier => "Identifier"
  | .String _ => "String(..)"
  | .Number _ => "Number(..)"
  | .And => "And"
  | .Class => "Class"
  | .Else => "Else"
  | .False => "False"
  | .Fun => "Fun"
  | .For => "For"
  | .If => "If"
  | .Nil => "Nil"
  | .Or => "Or"
  | .Print => "Print"
  | .Return => "Return"
  | .Super => "Super"
  | .This => "This"
  | .True => "True"
  | .Var => "Var"
  | .While => "While"
  | .Eof => "Eof"

/-- One fuel level of the parser: the rules that are targets of recursion
backedges in src/parser.rs. -/
structure ParserF where
  pDeclaration : Parser → Res Stmt × Parser
  pStatement : Parser → Res Stmt × Parser
  pExpression : Parser → Res Expr × Parser
  pAssignment : Parser → Res Expr × Parser
  pUnary : Parser → Res Expr × Parser

/-- Parser.parse_primary of src/parser.rs. -/
def parsePrimaryW (P : ParserF) (p : Parser) : Res Expr × Parser :=
  match (peekTok p).token_type with
  | .True | .False | .Number _ | .String _ | .Nil =>
    let (value, p₁) := advanceTok p
    (Res.ok (Expr.Literal value), p₁)
  | .Identifier =>
    let (name, p₁) := advanceTok p
    (Res.ok (Expr.Variable name), p₁)
  | .LeftParen =>
    let p₁ := (advanceTok p).2
    match P.pExpression p₁ with
    | (Res.ok e, p₂) =>
      match consumeNext (fun tt => tt = .RightParen)
          "Expect ')' after expression" p₂ with
      | (Res.ok _, p₃) => (Res.ok (Expr.Grouping e), p₃)
      | (Res.err er, p₃) => (Res.err er, p₃)
      | (Res.ret r, p₃) => (Res.ret r, p₃)
      | (Res.timeout, p₃) => (Res.timeout, p₃)
    | (r, p₂) => (r, p₂)
  | tt => (Res.err (perror p ("Expect expression found: " ++ dbgTokenType tt)),
      p)

/-- Parser.parse_unary of src/parser.rs: a Bang or Minus prefix recurses
into unary (one fuel level down, as in the source recursion), anything
else falls to primary.  Note: no call level exists between unary and
primary anywhere in the source. -/
def parseUnaryW (P : ParserF) (p : Parser) : Res Expr × Parser :=
  let (m, p₁) := matchNext
    (fun tt => tt = .Bang ∨ tt = .Minus) p
  if m then
    let operator := previousTok p₁
    match P.pUnary p₁ with
    | (Res.ok right, p₂) => (Res.ok (Expr.Unary operator right), p₂)
    | (r, p₂) => (r, p₂)
  else parsePrimaryW P p

/-- The iterative left-associative loop shared by the binary-operator
levels: while the next token matches the operator set, parse the next
lower level and fold the result into the accumulated expression. -/
def binOpLoop (next : Parser → Res Expr × Parser)
    (isOp : token.TokenType → Bool)
    (mk : Expr → token.Token → Expr → Expr) :
    Nat → Expr → Parser → Res Expr × Parser
  | 0, e, p => (Res.ok e, p)
  | fuel + 1, e, p =>
    let (m, p₁) := matchNext isOp p
    if m then
      let operator := previousTok p₁
      match next p₁ with
      | (Res.ok right, p₂) => binOpLoop next isOp mk fuel (mk e operator right) p₂
      | (r, p₂) => (r, p₂)
    else (Res.ok e, p)

/-- Parser.parse_factor of src/parser.rs: unary, then Slash/Star loop. -/
def parseFactorW (P : ParserF) (p : Parser) : Res Expr × Parser :=
  match parseUnaryW P p with
  | (Res.ok e, p₁) =>
    binOpLoop (parseUnaryW P) (fun tt => tt = .Slash ∨ tt = .Star)
      Expr.Binary (p₁.tokens.length + 1) e p₁
  | (r, p₁) => (r, p₁)

/-- Parser.parse_term of src/parser.rs: factor, then Minus/Plus loop. -/
def parseTermW (P : ParserF) (p : Parser) : Res Expr × Parser :=
  match parseFactorW P p with
  | (Res.ok e, p₁) =>
    binOpLoop (parseFactorW P) (fun tt => tt = .Minus ∨ tt = .Plus)
      Expr.Binary (p₁.tokens.length + 1) e p₁
  | (r, p₁) => (r, p₁)

/-- Parser.parse_comparison of src/parser.rs. -/
def parseComparisonW (P : ParserF) (p : Parser) : Res Expr × Parser :=
  match parseTermW P p with
  | (Res.ok e, p₁) =>
    binOpLoop (parseTermW P)
      (fun tt => tt = .Greater ∨ tt = .GreaterEqual ∨ tt = .Less
        ∨ tt = .LessEqual)
      Expr.Binary (p₁.tokens.length + 1) e p₁
  | (r, p₁) => (r, p₁)

/-- Parser.parse_equality of src/parser.rs. -/
def parseEqualityW (P : ParserF) (p : Parser) : Res Expr × Parser :=
  match parseComparisonW P p with
  | (Res.ok e, p₁) =>
    binOpLoop (parseComparisonW P)
      (fun tt => tt = .BangEqual ∨ tt = .EqualEqual)
      Expr.Binary (p₁.tokens.length + 1) e p₁
  | (r, p₁) => (r, p₁)

/-- Parser.parse_logic_and of src/parser.rs. -/
def parseLogicAndW (P : ParserF) (p : Parser) : Res Expr × Parser :=
  match parseEqualityW P p with
  | (Res.ok e, p₁) =>
    binOpLoop (parseEqualityW P) (fun tt => tt = .And)
      Expr.LogicAnd (p₁.tokens.length + 1) e p₁
  | (r, p₁) => (r, p₁)

/-- Parser.parse_logic_or of src/parser.rs. -/
def parseLogicOrW (P : ParserF) (p : Parser) : Res Expr × Parser :=
  match parseLogicAndW P p with
  | (Res.ok e, p₁) =>
    binOpLoop (parseLogicAndW P) (fun tt => tt = .Or)
      Expr.LogicOr (p₁.tokens.length + 1) e p₁
  | (r, p₁) => (r, p₁)

/-- Parser.parse_assignment of src/parser.rs: parse logic-or; on an Equal
token parse the right-hand side by the source's self-recursion (one fuel
level down), then accept only a Variable left-hand side. -/
def parseAssignmentW (P : ParserF) (p : Parser) : Res Expr × Parser :=
  match parseLogicOrW P p with
  | (Res.ok e, p₁) =>
    let (m, p₂) := matchNext (fun tt => tt = .Equal) p₁
    if m then
      match P.pAssignment p₂ with
      | (Res.ok value, p₃) =>
        match e with
        | Expr.Variable name => (Res.ok (Expr.Assignment name value), p₃)
        | _ => (Res.err (perror p₃ ("Invalid assignment target")), p₃)
      | (r, p₃) => (r, p₃)
    else (Res.ok e, p₂)
  | (r, p₁) => (r, p₁)

/-- Parser.parse_expression of src/parser.rs: delegate to assignment. -/
def parseExpressionW (P : ParserF) (p : Parser) : Res Expr × Parser :=
  parseAssignmentW P p

/-- Parser.parse_variable_declaration of src/parser.rs (the Var keyword is
already consumed by the caller). -/
def parseVariableDeclarationW (P : ParserF) (p : Parser) : Res Stmt × Parser :=
  match consumeNext (fun tt => tt = .Identifier) "Expect variable name" p with
  | (Res.ok name, p₁) =>
    match (peekTok p₁).token_type with
    | .Equal =>
      let p₂ := (advanceTok p₁).2
      match parseExpressionW P p₂ with
      | (Res.ok e, p₃) =>
        match consumeNext (fun tt => tt = .Semicolon)
            "Expect ';' after expression" p₃ with
        | (Res.ok _, p₄) =>
            (Res.ok (Stmt.VariableDeclaration name (some e)), p₄)
        | (Res.err er, p₄) => (Res.err er, p₄)
        | (Res.ret r, p₄) => (Res.ret r, p₄)
        | (Res.timeout, p₄) => (Res.timeout, p₄)
      | (Res.err er, p₃) => (Res.err er, p₃)
      | (Res.ret r, p₃) => (Res.ret r, p₃)
      | (Res.timeout, p₃) => (Res.timeout, p₃)
    | .Semicolon =>
      let p₂ := (advanceTok p₁).2
      (Res.ok (Stmt.VariableDeclaration name none), p₂)
    | _ => (Res.err (perror p₁ ("Expect ; after variable declaration")), p₁)
  | (Res.err er, p₁) => (Res.err er, p₁)
  | (Res.ret r, p₁) => (Res.ret r, p₁)
  | (Res.timeout, p₁) => (Res.timeout, p₁)

/-- Parser.parse_expression_statement of src/parser.rs. -/
def parseExpressionStatementW (P : ParserF) (p : Parser) : Res Stmt × Parser :=
  match parseExpressionW P p with
  | (Res.ok e, p₁) =>
    match consumeNext (fun tt => tt = .Semicolon)
        "Expect ; after expression statement" p₁ with
    | (Res.ok _, p₂) => (Res.ok (Stmt.Expression e), p₂)
    | (Res.err er, p₂) => (Res.err er, p₂)
    | (Res.ret r, p₂) => (Res.ret r, p₂)
    | (Res.timeout, p₂) => (Res.timeout, p₂)
  | (Res.err er, p₁) => (Res.err er, p₁)
  | (Res.ret r, p₁) => (Res.ret r, p₁)
  | (Res.timeout, p₁) => (Res.timeout, p₁)

/-- Parser.parse_print_statement of src/parser.rs (Print keyword already
consumed). -/
def parsePrintStatementW (P : ParserF) (p : Parser) : Res Stmt × Parser :=
  match parseExpressionW P p with
  | (Res.ok e, p₁) =>
    match consumeNext (fun tt => tt = .Semicolon)
        "Expect ; after print statement" p₁ with
    | (Res.ok _, p₂) => (Res.ok (Stmt.Print e), p₂)
    | (Res.err er, p₂) => (Res.err er, p₂)
    | (Res.ret r, p₂) => (Res.ret r, p₂)
    | (Res.timeout, p₂) => (Res.timeout, p₂)
  | (Res.err er, p₁) => (Res.err er, p₁)
  | (Res.ret r, p₁) => (Res.ret r, p₁)
  | (Res.timeout, p₁) => (Res.timeout, p₁)

/-- The statement-collecting loop of Parser.parse_block, with a
token-count fuel (every successful declaration consumes at least one
token). -/
def blockLoop (P : ParserF) : Nat → List Stmt → Parser → Res (List Stmt) × Parser
  | 0, _, p => (Res.timeout, p)
  | fuel + 1, acc, p =>
    if ((match (peekTok p).token_type with
        | token.TokenType.RightBrace => false
        | _ => true) && !atEndP p) then
      match P.pDeclaration p with
      | (Res.ok st, p₁) => blockLoop P fuel (acc ++ [st]) p₁
      | (Res.err er, p₁) => (Res.err er, p₁)
      | (Res.ret r, p₁) => (Res.ret r, p₁)
      | (Res.timeout, p₁) => (Res.timeout, p₁)
    else (Res.ok acc, p)

/-- Parser.parse_block of src/parser.rs (LeftBrace already consumed):
collect declarations until a RightBrace or end, then consume the
RightBrace. -/
def parseBlockW (P : ParserF) (p : Parser) : Res Stmt × Parser :=
  match blockLoop P (p.tokens.length + 1) [] p with
  | (Res.ok stmts, p₁) =>
    match consumeNext (fun tt => tt = .RightBrace)
        "Expect \x7d after block" p₁ with
    | (Res.ok _, p₂) => (Res.ok (Stmt.Block stmts), p₂)
    | (Res.err er, p₂) => (Res.err er, p₂)
    | (Res.ret r, p₂) => (Res.ret r, p₂)
    | (Res.timeout, p₂) => (Res.timeout, p₂)
  | (Res.err er, p₁) => (Res.err er, p₁)
  | (Res.ret r, p₁) => (Res.ret r, p₁)
  | (Res.timeout, p₁) => (Res.timeout, p₁)

/-- Parser.parse_if_statement of src/parser.rs (If keyword already
consumed); the then/else branches recurse into statement one fuel level
down. -/
def parseIfStatementW (P : ParserF) (p : Parser) : Res Stmt × Parser :=
  match consumeNext (fun tt => tt = .LeftParen) "Expect '(' after 'if'." p with
  | (Res.ok _, p₁) =>
    match parseExpressionW P p₁ with
    | (Res.ok condition, p₂) =>
      match consumeNext (fun tt => tt = .RightParen)
          "Expect ')' after if condition." p₂ with
      | (Res.ok _, p₃) =>
        match P.pStatement p₃ with
        | (Res.ok then_branch, p₄) =>
          let (m, p₅) := matchNext (fun tt => tt = .Else) p₄
          if m then
            match P.pStatement p₅ with
            | (Res.ok else_branch, p₆) =>
                (Res.ok (Stmt.If condition then_branch (some else_branch)), p₆)
            | (Res.err er, p₆) => (Res.err er, p₆)
            | (Res.ret r, p₆) => (Res.ret r, p₆)
            | (Res.timeout, p₆) => (Res.timeout, p₆)
          else (Res.ok (Stmt.If condition then_branch none), p₅)
        | (Res.err er, p₄) => (Res.err er, p₄)
        | (Res.ret r, p₄) => (Res.ret r, p₄)
        | (Res.timeout, p₄) => (Res.timeout, p₄)
      | (Res.err er, p₃) => (Res.err er, p₃)
      | (Res.ret r, p₃) => (Res.ret r, p₃)
      | (Res.timeout, p₃) => (Res.timeout, p₃)
    | (Res.err er, p₂) => (Res.err er, p₂)
    | (Res.ret r, p₂) => (Res.ret r, p₂)
    | (Res.timeout, p₂) => (Res.timeout, p₂)
  | (Res.err er, p₁) => (Res.err er, p₁)
  | (Res.ret r, p₁) => (Res.ret r, p₁)
  | (Res.timeout, p₁) => (Res.timeout, p₁)

/-- Parser.parse_while_loop of src/parser.rs (While keyword already
consumed; the source reuses the "after 'if'" error messages verbatim). -/
def parseWhileLoopW (P : ParserF) (p : Parser) : Res Stmt × Parser :=
  match consumeNext (fun tt => tt = .LeftParen) "Expect '(' after 'if'." p with
  | (Res.ok _, p₁) =>
    match parseExpressionW P p₁ with
    | (Res.ok condition, p₂) =>
      match consumeNext (fun tt => tt = .RightParen)
          "Expect ')' after if condition." p₂ with
      | (Res.ok _, p₃) =>
        match P.pStatement p₃ with
        | (Res.ok body, p₄) => (Res.ok (Stmt.While condition body), p₄)
        | (Res.err er, p₄) => (Res.err er, p₄)
        | (Res.ret r, p₄) => (Res.ret r, p₄)
        | (Res.timeout, p₄) => (Res.timeout, p₄)
      | (Res.err er, p₃) => (Res.err er, p₃)
      | (Res.ret r, p₃) => (Res.ret r, p₃)
      | (Res.timeout, p₃) => (Res.timeout, p₃)
    | (Res.err er, p₂) => (Res.err er, p₂)
    | (Res.ret r, p₂) => (Res.ret r, p₂)
    | (Res.timeout, p₂) => (Res.timeout, p₂)
  | (Res.err er, p₁) => (Res.err er, p₁)
  | (Res.ret r, p₁) => (Res.ret r, p₁)
  | (Res.timeout, p₁) => (Res.timeout, p₁)

/-- Parser.parse_for_statement of src/parser.rs (For keyword already
consumed): parse the three clauses and desugar into While, wrapping the
increment into a trailing block statement and the initializer into an
enclosing block, exactly as the source does. -/
def parseForStatementW (P : ParserF) (p : Parser) : Res Stmt × Parser :=
  match consumeNext (fun tt => tt = .LeftParen) "Expect '(' after 'for'." p with
  | (Res.ok _, p₁) =>
    let initRes : Res (Option Stmt) × Parser :=
      match (peekTok p₁).token_type with
      | .Var =>
        let p₂ := (advanceTok p₁).2
        match parseVariableDeclarationW P p₂ with
        | (Res.ok st, p₃) => (Res.ok (some st), p₃)
        | (Res.err er, p₃) => (Res.err er, p₃)
        | (Res.ret r, p₃) => (Res.ret r, p₃)
        | (Res.timeout, p₃) => (Res.timeout, p₃)
      | .Semicolon =>
        let p₂ := (advanceTok p₁).2
        (Res.ok none, p₂)
      | _ =>
        match parseExpressionStatementW P p₁ with
        | (Res.ok st, p₃) => (Res.ok (some st), p₃)
        | (Res.err er, p₃) => (Res.err er, p₃)
        | (Res.ret r, p₃) => (Res.ret r, p₃)
        | (Res.timeout, p₃) => (Res.timeout, p₃)
    match initRes with
    | (Res.ok initializer, p₂) =>
      let condRes : Res Expr × Parser :=
        match (peekTok p₂).token_type with
        | .Semicolon =>
          (Res.ok (Expr.Literal
            (token.Token.new token.TokenType.True ("true") (peekTok p₂).line)),
            p₂)
        | _ => parseExpressionW P p₂
      match condRes with
      | (Res.ok condition, p₃) =>
        match consumeNext (fun tt => tt = .Semicolon)
            "Expect ';' after loop condition." p₃ with
        | (Res.ok _, p₄) =>
          let incrRes : Res (Option Expr) × Parser :=
            match (peekTok p₄).token_type with
            | .RightParen => (Res.ok none, p₄)
            | _ =>
              match parseExpressionW P p₄ with
              | (Res.ok e, p₅) => (Res.ok (some e), p₅)
              | (Res.err er, p₅) => (Res.err er, p₅)
              | (Res.ret r, p₅) => (Res.ret r, p₅)
              | (Res.timeout, p₅) => (Res.timeout, p₅)
          match incrRes with
          | (Res.ok increment, p₅) =>
            match consumeNext (fun tt => tt = .RightParen)
                "Expect ')' after for clauses." p₅ with
            | (Res.ok _, p₆) =>
              match P.pStatement p₆ with
              | (Res.ok body₀, p₇) =>
                let body₁ :=
                  match increment with
                  | some inc =>
                      Stmt.Block [body₀, Stmt.Expression inc]
                  | none => body₀
                let body₂ := Stmt.While condition body₁
                let body₃ :=
                  match initializer with
                  | some ini => Stmt.Block [ini, body₂]
                  | none => body₂
                (Res.ok body₃, p₇)
              | (Res.err er, p₇) => (Res.err er, p₇)
              | (Res.ret r, p₇) => (Res.ret r, p₇)
              | (Res.timeout, p₇) => (Res.timeout, p₇)
            | (Res.err er, p₆) => (Res.err er, p₆)
            | (Res.ret r, p₆) => (Res.ret r, p₆)
            | (Res.timeout, p₆) => (Res.timeout, p₆)
          | (Res.err er, p₅) => (Res.err er, p₅)
          | (Res.ret r, p₅) => (Res.ret r, p₅)
          | (Res.timeout, p₅) => (Res.timeout, p₅)
        | (Res.err er, p₄) => (Res.err er, p₄)
        | (Res.ret r, p₄) => (Res.ret r, p₄)
        | (Res.timeout, p₄) => (Res.timeout, p₄)
      | (Res.err er, p₃) => (Res.err er, p₃)
      | (Res.ret r, p₃) => (Res.ret r, p₃)
      | (Res.timeout, p₃) => (Res.timeout, p₃)
    | (Res.err er, p₂) => (Res.err er, p₂)
    | (Res.ret r, p₂) => (Res.ret r, p₂)
    | (Res.timeout, p₂) => (Res.timeout, p₂)
  | (Res.err er, p₁) => (Res.err er, p₁)
  | (Res.ret r, p₁) => (Res.ret r, p₁)
  | (Res.timeout, p₁) => (Res.timeout, p₁)

/-- Parser.parse_statement of src/parser.rs: For, If, While, Print, a
LeftBrace block, else an expression statement.  There is NO arm for a
function declaration (Fun) and NO arm for Return anywhere in the source
parser. -/
def parseStatementW (P : ParserF) (p : Parser) : Res Stmt × Parser :=
  let (mFor, p₁) := matchNext (fun tt => tt = .For) p
  if mFor then parseForStatementW P p₁
  else
    let (mIf, p₂) := matchNext (fun tt => tt = .If) p₁
    if mIf then parseIfStatementW P p₂
    else
      let (mWhile, p₃) := matchNext (fun tt => tt = .While) p₂
      if mWhile then parseWhileLoopW P p₃
      else
        let (mPrint, p₄) := matchNext (fun tt => tt = .Print) p₃
        if mPrint then parsePrintStatementW P p₄
        else
          let (mBrace, p₅) := matchNext (fun tt => tt = .LeftBrace) p₄
          if mBrace then parseBlockW P p₅
          else parseExpressionStatementW P p₅

/-- Parser.parse_declaration_statement of src/parser.rs: a Var keyword
starts a variable declaration, anything else is a plain statement. -/
def parseDeclarationW (P : ParserF) (p : Parser) : Res Stmt × Parser :=
  let (m, p₁) := matchNext (fun tt => tt = .Var) p
  if m then parseVariableDeclarationW P p₁
  else parseStatementW P p₁

/-- Zero fuel: every rule times out. -/
def parserZero : ParserF where
  pDeclaration := fun p => (Res.timeout, p)
  pStatement := fun p => (Res.timeout, p)
  pExpression := fun p => (Res.timeout, p)
  pAssignment := fun p => (Res.timeout, p)
  pUnary := fun p => (Res.timeout, p)

/-- The fuel-indexed parser rule set. -/
def parserF : Nat → ParserF
  | 0 => parserZero
  | n + 1 =>
    let P := parserF n
    { pDeclaration := parseDeclarationW P
      pStatement := parseStatementW P
      pExpression := parseExpressionW P
      pAssignment := parseAssignmentW P
      pUnary := parseUnaryW P }

/-- The statement loop of Parser.parse, with a token-count fuel. -/
def parseMainLoop (P : ParserF) : Nat → List Stmt → Parser →
    Res (List Stmt) × Parser
  | 0, _, p => (Res.timeout, p)
  | fuel + 1, acc, p =>
    if atEndP p then (Res.ok acc, p)
    else
      match P.pDeclaration p with
      | (Res.ok st, p₁) => parseMainLoop P fuel (acc ++ [st]) p₁
      | (Res.err er, p₁) => (Res.err er, p₁)
      | (Res.ret r, p₁) => (Res.ret r, p₁)
      | (Res.timeout, p₁) => (Res.timeout, p₁)

/-- Parser.parse of src/parser.rs on a fresh parser: collect declarations
until the Eof token, aborting at the first error. -/
def parseTokens (fuel : Nat) (tokens : List token.Token) :
    Res (List Stmt) × Parser :=
  parseMainLoop (parserF fuel) (tokens.length + 1) [] ⟨tokens, 0⟩

end parser

namespace interpreter

/-- Specification-side description of the walk Environment.assign and
Environment.get perform: the address of the INNERMOST scope on the chain
from the given address whose store contains the name.  It mirrors the
recursion structure of envAssign exactly: some (some j) means the walk
found the name first at address j; some none means the walk reached a
chain end without finding it; none means the walk was cut off (fuel
exhausted or a dangling address), in which case nothing is asserted. -/
def findScope : Nat → Heap → Nat → Str → Option (Option Nat)
  | 0, _, _, _ => none
  | fuel + 1, h, id, nm =>
    match h.get? id with
    | none => none
    | some sc =>
      if storeContainsB sc.store nm then some (some id)
      else
        match sc.enclosing with
        | some e => findScope fuel h e nm
        | none => some none

/-- Inserting a key that a store already contains preserves the key list:
no binding is created. -/
theorem storeInsert_keys_of_contains (k : Str) (v : Value) :
    ∀ st : List (Str × Value), storeContainsB st k = true →
      storeKeys (storeInsert st k v) = storeKeys st := by
  intro st
  induction st with
  | nil => intro hc; simp [storeContainsB, storeGet] at hc
  | cons hd tl ih =>
    obtain ⟨k₀, v₀⟩ := hd
    intro hc
    by_cases hk : k₀ = k
    · subst hk
      simp [storeInsert, storeKeys]
    · have hc' : storeContainsB tl k = true := by
        simp only [storeContainsB, storeGet] at hc ⊢
        rw [if_neg hk] at hc
        exact hc
      have := ih hc'
      simp only [storeInsert, if_neg hk, storeKeys, List.map_cons] at this ⊢
      rw [this]

/-- Inserting a key leaves every other key's value unchanged. -/
theorem storeInsert_get_ne (k : Str) (v : Value) (k₂ : Str) (hne : k₂ ≠ k) :
    ∀ st : List (Str × Value),
      storeGet (storeInsert st k v) k₂ = storeGet st k₂ := by
  have hkk : ¬(k = k₂) := fun hh => hne hh.symm
  intro st
  induction st with
  | nil => simp [storeInsert, storeGet, hkk]
  | cons hd tl ih =>
    obtain ⟨k₀, v₀⟩ := hd
    by_cases hk : k₀ = k
    · subst hk
      simp [storeInsert, storeGet, hkk]
    · by_cases hk₂ : k₀ = k₂
      · simp [storeInsert, storeGet, hk, hk₂, hne]
      · simp [storeInsert, storeGet, hk, hk₂, ih]

/-- When the walk finds the name at address j, assign succeeds with the
assigned value and the heap is updated exactly at j by an in-place store
insert. -/
theorem assign_of_findScope_found (t : token.Token) (v : Value) :
    ∀ fuel (h : Heap) id j sc,
      findScope fuel h id t.text = some (some j) →
      h.get? j = some sc →
      envAssign fuel h id t v
        = (Res.ok v, h.set j ⟨sc.enclosing, storeInsert sc.store t.text v⟩)
      ∧ storeContainsB sc.store t.text = true := by
  intro fuel
  induction fuel with
  | zero => intro h id j sc hfind; simp [findScope] at hfind
  | succ fuel ih =>
    intro h id j sc hfind hget
    rw [findScope] at hfind
    cases hid : h.get? id with
    | none => rw [hid] at hfind; simp at hfind
    | some sc₀ =>
      rw [hid] at hfind
      dsimp only at hfind
      by_cases hc : storeContainsB sc₀.store t.text = true
      · rw [if_pos hc] at hfind
        have hj : id = j := by
          simpa using hfind
        subst hj
        have hsc : sc₀ = sc := by
          rw [hid] at hget; exact Option.some.inj hget
        subst hsc
        constructor
        · rw [envAssign, hid]
          dsimp only
          rw [if_pos hc]
        · exact hc
      · rw [if_neg hc] at hfind
        cases henc : sc₀.enclosing with
        | none => rw [henc] at hfind; simp at hfind
        | some e =>
          rw [henc] at hfind
          have := ih h e j sc hfind hget
          refine ⟨?_, this.2⟩
          rw [envAssign, hid]
          dsimp only
          rw [if_neg hc, henc]
          exact this.1

/-- When the walk reaches a chain end without finding the name, assign
produces the undefined-variable RuntimeError and returns the heap
unchanged: no scope's mapping changes. -/
theorem assign_of_findScope_unbound (t : token.Token) (v : Value) :
    ∀ fuel (h : Heap) id,
      findScope fuel h id t.text = some none →
      envAssign fuel h id t v
        = (Res.err (Error.RuntimeError t.line
            ("Undefined variable " ++ t.text)), h) := by
  intro fuel
  induction fuel with
  | zero => intro h id hfind; simp [findScope] at hfind
  | succ fuel ih =>
    intro h id hfind
    rw [findScope] at hfind
    cases hid : h.get? id with
    | none => rw [hid] at hfind; simp at hfind
    | some sc₀ =>
      rw [hid] at hfind
      dsimp only at hfind
      by_cases hc : storeContainsB sc₀.store t.text = true
      · rw [if_pos hc] at hfind; simp at hfind
      · rw [if_neg hc] at hfind
        cases henc : sc₀.enclosing with
        | none =>
          rw [envAssign, hid]
          dsimp only
          rw [if_neg hc, henc]
        | some e =>
          rw [henc] at hfind
          rw [envAssign, hid]
          dsimp only
          rw [if_neg hc, henc]
          exact ih h e hfind

end interpreter

/-! Concrete tokens, programs and states used by the claim theorems.
The interpreter-level programs are given directly as ASTs because the
source parser rejects function declarations, return statements and call
expressions (see the C6 theorem), while src/stmt.rs, src/expr.rs and the
interpreter fully support them. -/

/-- Identifier token for the variable x. -/
def xTok : token.Token := ⟨token.TokenType.Identifier, "x", 1⟩

/-- Identifier token for the function f. -/
def fTok : token.Token := ⟨token.TokenType.Identifier, "f", 2⟩

/-- A closing-parenthesis token used as the call-site token of Call nodes. -/
def parenTok : token.Token := ⟨token.TokenType.RightParen, ")", 4⟩

/-- Number literal token 1. -/
def oneTok : token.Token := ⟨token.TokenType.Number 1, "1", 1⟩

/-- Number literal token 2. -/
def twoTok : token.Token := ⟨token.TokenType.Number 2, "2", 4⟩

/-- Number literal token 42. -/
def fortyTwoTok : token.Token := ⟨token.TokenType.Number 42, "42", 1⟩

/-- The return keyword token. -/
def retTok : token.Token := ⟨token.TokenType.Return, "return", 1⟩

/-- The bang operator token. -/
def bangTok : token.Token := ⟨token.TokenType.Bang, "!", 1⟩

/-- The nil literal token. -/
def nilTok : token.Token := ⟨token.TokenType.Nil, "nil", 1⟩

/-- Number literal token 0. -/
def zeroTok : token.Token := ⟨token.TokenType.Number 0, "0", 1⟩

/-- Empty string literal token. -/
def emptyStrTok : token.Token := ⟨token.TokenType.String "", "\x22\x22", 1⟩

/-- The false literal token. -/
def falseTok : token.Token := ⟨token.TokenType.False, "false", 1⟩

/-- The program var x = 1; fun f() { print x; } { var x = 2; f(); } in
which the free variable x of f resolves differently under declaration-time
capture (prints 1) and under call-site binding (prints 2). -/
def closureProg : List Stmt :=
  [ Stmt.VariableDeclaration xTok (some (Expr.Literal oneTok)),
    Stmt.FunctionDeclaration fTok [] [Stmt.Print (Expr.Variable xTok)],
    Stmt.Block
      [ Stmt.VariableDeclaration xTok (some (Expr.Literal twoTok)),
        Stmt.Expression (Expr.Call (Expr.Variable fTok) parenTok []) ] ]

/-- C1.  The claim states that a function value captures the environment
active at declaration time and that later calls resolve free variables
against that defining scope.  The code stores no environment in the
Function value at all (struct Function has the single field declaration)
and Function.call links the fresh scope to interpreter.env as it is AT THE
CALL SITE.  Running closureProg therefore prints 2 (the x of the block the
call happens in), where declaration-time capture would print 1 (the global
x of the defining scope).  This theorem evaluates the code at that failing
input. -/
theorem function_call_binds_call_site_environment :
    (interpreter.interpret 10 closureProg).1 = Res.ok ()
    ∧ (interpreter.interpret 10 closureProg).2.output
        = [interpreter.Value.Number 2] :=
  ⟨rfl, rfl⟩

/-- Function declaration with empty parameter list and empty body. -/
def fd0 : FunctionDeclaration := ⟨fTok, [], []⟩

/-- A statement executor that does nothing, used to instantiate the C2
theorem at a concrete input. -/
def okEx : Stmt → interpreter.State → Res Unit × interpreter.State :=
  fun _ s => (Res.ok (), s)

/-- C2.  The claim states that a call of a function whose body executes a
return statement evaluates to the returned value.  In the code this is
impossible: impl stmt.Visitor for Interpreter has no visit_return method
(the trait requires one, so the crate does not even compile as given), the
statement result type Result of Unit has no variant that could carry a
value past execute_block, and Function.call produces Ok(Value.Nil) after
every successfully executed body.  This theorem proves that a successful
user-function call yields Nil whatever the body executor does - so no call
can evaluate to a returned value of 42. -/
theorem function_call_result_is_always_nil :
    ∀ (ex : Stmt → interpreter.State → Res Unit × interpreter.State)
      (f : interpreter.Function) (args : List interpreter.Value)
      (paren : token.Token) (s : interpreter.State)
      (v : interpreter.Value) (s₂ : interpreter.State),
      interpreter.Function.callWith ex f args paren s = (Res.ok v, s₂) →
      v = interpreter.Value.Nil := by
  intro ex f args paren s v s₂ hcall
  unfold interpreter.Function.callWith at hcall
  split at hcall
  · simp at hcall
  · have h1 := congrArg Prod.fst hcall
    dsimp only at h1
    split at h1
    · injection h1 with hv
      exact hv.symm
    · exact Res.noConfusion h1
    · exact Res.noConfusion h1
    · exact Res.noConfusion h1

/-- Witness for C2: a call of fun f() {} under the trivial executor
returns ok, and the theorem turns that into Nil = Nil. -/
theorem function_call_result_is_always_nil_witness :
    (interpreter.Function.callWith okEx ⟨fd0⟩ [] parenTok
        interpreter.initState).1 = Res.ok interpreter.Value.Nil
    ∧ interpreter.Value.Nil = interpreter.Value.Nil :=
  ⟨rfl,
    function_call_result_is_always_nil okEx ⟨fd0⟩ [] parenTok
      interpreter.initState interpreter.Value.Nil
      (interpreter.Function.callWith okEx ⟨fd0⟩ [] parenTok
        interpreter.initState).2 (by rfl)⟩

/-- C3 counterexample: the claim says every value other than Nil and
Boolean false - including Function and NativeFunction values - is truthy,
but is_truthy of the code returns false for both function kinds. -/
theorem function_values_are_falsy_counterexample :
    interpreter.isTruthy (interpreter.Value.Function ⟨fd0⟩) = false
    ∧ interpreter.isTruthy (interpreter.Value.NativeFunction ⟨0, "clock"⟩)
        = false :=
  ⟨rfl, rfl⟩

/-- C3 as amended: the truthiness used by the interpreter (is_truthy, the
single function consulted by visit_if, visit_while, visit_logic_or,
visit_logic_and and the Bang arm of visit_unary) is true exactly for the
values that are neither Nil, nor Boolean false, nor Function, nor
NativeFunction: every Number (including 0) and every String (including
the empty string) is truthy and Boolean true is truthy. -/
theorem truthiness_characterization :
    ∀ v : interpreter.Value, interpreter.isTruthy v = true ↔
      (v ≠ interpreter.Value.Nil ∧ v ≠ interpreter.Value.Boolean false
        ∧ (∀ f, v ≠ interpreter.Value.Function f)
        ∧ (∀ nf, v ≠ interpreter.Value.NativeFunction nf)) := by
  intro v
  cases v with
  | String s => simp [interpreter.isTruthy]
  | Number n => simp [interpreter.isTruthy]
  | Boolean b => cases b <;> simp [interpreter.isTruthy]
  | Function f =>
    simp only [interpreter.isTruthy]
    constructor
    · intro h; exact absurd h (by simp)
    · rintro ⟨h₁, h₂, hf, hn⟩; exact absurd rfl (hf f)
  | NativeFunction nf =>
    simp only [interpreter.isTruthy]
    constructor
    · intro h; exact absurd h (by simp)
    · rintro ⟨h₁, h₂, hf, hn⟩; exact absurd rfl (hn nf)
  | Nil =>
    simp only [interpreter.isTruthy]
    constructor
    · intro h; exact absurd h (by simp)
    · rintro ⟨h₁, h₂, hf, hn⟩; exact absurd rfl h₁

/-- C4.  The claim states that unary bang yields the boolean NEGATION of
the operand's truthiness (so bang nil is true, bang false is true, bang 0
is false, bang of the empty string is false).  The Bang arm of
visit_unary returns Boolean(is_truthy(operand)) WITHOUT negating, so the
code evaluates bang nil to false, bang false to false, bang 0 to true and
bang of the empty string to true - the opposite of the claim on all four
inputs listed by the spec. -/
theorem bang_returns_truthiness_unnegated :
    ((interpreter.interp 2).evalE (Expr.Unary bangTok (Expr.Literal nilTok))
        interpreter.initState).1
      = Res.ok (interpreter.Value.Boolean false)
    ∧ ((interpreter.interp 2).evalE (Expr.Unary bangTok (Expr.Literal falseTok))
        interpreter.initState).1
      = Res.ok (interpreter.Value.Boolean false)
    ∧ ((interpreter.interp 2).evalE (Expr.Unary bangTok (Expr.Literal zeroTok))
        interpreter.initState).1
      = Res.ok (interpreter.Value.Boolean true)
    ∧ ((interpreter.interp 2).evalE
        (Expr.Unary bangTok (Expr.Literal emptyStrTok))
        interpreter.initState).1
      = Res.ok (interpreter.Value.Boolean true) :=
  ⟨rfl, rfl, rfl, rfl⟩

/-- C5.  The claim states that an unterminated string at end of input
surfaces a structured scan error like every other scan failure.  The code
(Scanner.string) instead prints "Unterminated string" to stderr and
returns without pushing a token, and scan_tokens returns a plain token
list with no error component whatsoever, so no structured error can reach
the caller: scanning the four-character source consisting of a double
quote followed by abc yields exactly the synthetic Eof token and nothing
else. -/
theorem unterminated_string_produces_no_token_and_no_error :
    scanner.scanTokens "\x22abc"
      = some [⟨scanner.TokenType.Eof, "", none, 0⟩] :=
  rfl

/-- Token sequence of the source f(1); - a call expression statement. -/
def callToks : List token.Token :=
  [⟨token.TokenType.Identifier, "f", 1⟩, ⟨token.TokenType.LeftParen, "(", 1⟩,
   ⟨token.TokenType.Number 1, "1", 1⟩, ⟨token.TokenType.RightParen, ")", 1⟩,
   ⟨token.TokenType.Semicolon, ";", 1⟩, ⟨token.TokenType.Eof, "", 1⟩]

/-- Token sequence of the source nil; return; - a return statement after a
first well-formed statement. -/
def retToks : List token.Token :=
  [⟨token.TokenType.Nil, "nil", 1⟩, ⟨token.TokenType.Semicolon, ";", 1⟩,
   ⟨token.TokenType.Return, "return", 1⟩, ⟨token.TokenType.Semicolon, ";", 1⟩,
   ⟨token.TokenType.Eof, "", 1⟩]

/-- Token sequence of the source nil; fun f() {} - a function declaration
after a first well-formed statement. -/
def funToks : List token.Token :=
  [⟨token.TokenType.Nil, "nil", 1⟩, ⟨token.TokenType.Semicolon, ";", 1⟩,
   ⟨token.TokenType.Fun, "fun", 1⟩, ⟨token.TokenType.Identifier, "f", 1⟩,
   ⟨token.TokenType.LeftParen, "(", 1⟩, ⟨token.TokenType.RightParen, ")", 1⟩,
   ⟨token.TokenType.LeftBrace, "\x7b", 1⟩, ⟨token.TokenType.RightBrace, "\x7d", 1⟩,
   ⟨token.TokenType.Eof, "", 1⟩]

/-- C6.  The claim states the parser accepts function declarations and
return statements as statements and postfix call expressions between
unary and primary.  parse_statement of src/parser.rs has arms only for
for, if, while, print, brace blocks and expression statements; no rule
anywhere consumes Fun or Return, and parse_unary falls directly to
parse_primary with no call level, so f(1); nil; return; and nil; fun f()
{} all abort with ParseErrors instead of producing Call, Return and
FunctionDeclaration nodes. -/
theorem parser_rejects_fun_return_and_call :
    (parser.parseTokens 10 callToks).1
      = Res.err (Error.ParseError 1 ("Expect ; after expression statement"))
    ∧ (parser.parseTokens 10 retToks).1
      = Res.err (Error.ParseError 1 ("Expect expression found: Return"))
    ∧ (parser.parseTokens 10 funToks).1
      = Res.err (Error.ParseError 1 ("Expect expression found: Fun")) :=
  ⟨rfl, rfl, rfl⟩

/-- C7.  The claim states that the scanner emits a Number token whose
literal payload is the decoded floating-point value of the lexeme.  The
TokenType of src/scanner.rs carries no payload, Token.literal is an
optional STRING, and Scanner.number stores the raw lexeme text there (the
source itself notes "NOTE: Not parsed into a number").  Scanning 1.50
yields a Number token whose payload is the undecoded four-character
string 1.50 (the decoded value would be 1.5, which no field of the token
can even hold). -/
theorem number_token_payload_is_raw_lexeme :
    scanner.scanTokens "1.50"
      = some [⟨scanner.TokenType.Number, "1.50", some "1.50", 0⟩,
          ⟨scanner.TokenType.Eof, "", none, 0⟩] :=
  rfl

/-- C8.  Environment.assign walks outward from the given scope; when some
scope on the chain contains the name (findScope returning the INNERMOST
such address j), the walk mutates exactly that scope by an in-place store
insert which preserves the key set (no new binding anywhere) and leaves
every other scope untouched, returning the assigned value; when no scope
on the chain contains the name, it returns the undefined-variable
RuntimeError and the heap completely unchanged. -/
theorem assign_mutates_innermost_binding_or_errors :
    (∀ fuel (h : interpreter.Heap) id (t : token.Token)
        (v : interpreter.Value) j sc,
      interpreter.findScope fuel h id t.text = some (some j) →
      h.get? j = some sc →
      interpreter.envAssign fuel h id t v
        = (Res.ok v,
            h.set j ⟨sc.enclosing, interpreter.storeInsert sc.store t.text v⟩)
      ∧ interpreter.storeContainsB sc.store t.text = true
      ∧ interpreter.storeKeys (interpreter.storeInsert sc.store t.text v)
          = interpreter.storeKeys sc.store
      ∧ (∀ i, i ≠ j →
          (h.set j
            ⟨sc.enclosing, interpreter.storeInsert sc.store t.text v⟩).get? i
            = h.get? i))
    ∧ (∀ fuel (h : interpreter.Heap) id (t : token.Token)
        (v : interpreter.Value),
      interpreter.findScope fuel h id t.text = some none →
      interpreter.envAssign fuel h id t v
        = (Res.err (Error.RuntimeError t.line
            ("Undefined variable " ++ t.text)), h)) := by
  constructor
  · intro fuel h id t v j sc hfind hget
    obtain ⟨heq, hc⟩ :=
      interpreter.assign_of_findScope_found t v fuel h id j sc hfind hget
    exact ⟨heq, hc,
      interpreter.storeInsert_keys_of_contains t.text v sc.store hc,
      fun i hne => List.get?_set_ne _ _ (Ne.symm hne)⟩
  · intro fuel h id t v hfind
    exact interpreter.assign_of_findScope_unbound t v fuel h id hfind

/-- Store of the outer example scope: x and y bound. -/
def store0 : List (Str × interpreter.Value) :=
  [("x", interpreter.Value.Number 1), ("y", interpreter.Value.Nil)]

/-- Example heap: an outer scope with x and y, an inner scope with z. -/
def hEx : interpreter.Heap :=
  [⟨none, store0⟩, ⟨some 0, [("z", interpreter.Value.Number 3)]⟩]

/-- Example heap with one empty scope (x unbound everywhere). -/
def hUn : interpreter.Heap := [⟨none, []⟩]

/-- Identifier token x at line 7 used by the assignment witnesses. -/
def xTok7 : token.Token := ⟨token.TokenType.Identifier, "x", 7⟩

/-- Witness for C8: from the inner scope of hEx, assigning x mutates the
outer scope (the innermost one binding x) and returns the value; on hUn
the same assignment fails with the undefined-variable error, the heap
unchanged. -/
theorem assign_mutates_innermost_binding_or_errors_witness :
    interpreter.envAssign 5 hEx 1 xTok7 (interpreter.Value.Number 5)
      = (Res.ok (interpreter.Value.Number 5),
          hEx.set 0 ⟨none,
            interpreter.storeInsert store0 ("x") (interpreter.Value.Number 5)⟩)
    ∧ interpreter.envAssign 5 hUn 0 xTok7 (interpreter.Value.Number 5)
      = (Res.err (Error.RuntimeError 7 ("Undefined variable x")), hUn) :=
  ⟨(assign_mutates_innermost_binding_or_errors.1 5 hEx 1 xTok7
      (interpreter.Value.Number 5) 0 ⟨none, store0⟩ rfl rfl).1,
    assign_mutates_innermost_binding_or_errors.2 5 hUn 0 xTok7
      (interpreter.Value.Number 5) rfl⟩

/-- C9.  execute_block saves the current-environment address and restores
it unconditionally after the body loop, whatever the result (ok, error,
return signal or non-termination cutoff); Function.call goes through
execute_block and keeps that state on every arm, and visit_block at any
fuel is execute_block on a fresh scope.  Hence after a block statement or
a function call body the current-environment address always equals the
address from before entry. -/
theorem block_and_call_restore_environment :
    (∀ ex stmts envd (s : interpreter.State),
      ((interpreter.executeBlockWith ex stmts envd s).2).env = s.env)
    ∧ (∀ ex f args paren (s : interpreter.State),
      ((interpreter.Function.callWith ex f args paren s).2).env = s.env)
    ∧ (∀ n stmts (s : interpreter.State),
      (((interpreter.interp n).execS (Stmt.Block stmts) s).2).env = s.env) := by
  refine ⟨fun ex stmts envd s => rfl, fun ex f args paren s => ?_,
    fun n stmts s => ?_⟩
  · unfold interpreter.Function.callWith
    split
    · rfl
    · rfl
  · cases n with
    | zero => rfl
    | succ n => rfl

/-- C10.  When the right-hand side of an assignment evaluates to v and the
target name is bound somewhere on the environment chain, the assignment
expression itself evaluates to v (visit_assignment returns what
Environment.assign returns, and assign returns Ok of the assigned
value). -/
theorem assignment_evaluates_to_assigned_value :
    ∀ n (s : interpreter.State) (t : token.Token) (e : Expr)
      (v : interpreter.Value) (s₁ : interpreter.State) j sc,
      (interpreter.interp n).evalE e s = (Res.ok v, s₁) →
      interpreter.findScope (s₁.heap.length + 1) s₁.heap s₁.env t.text
        = some (some j) →
      s₁.heap.get? j = some sc →
      ((interpreter.interp (n + 1)).evalE (Expr.Assignment t e) s).1
        = Res.ok v := by
  intro n s t e v s₁ j sc heval hfind hget
  have hassign :=
    interpreter.assign_of_findScope_found t v (s₁.heap.length + 1)
      s₁.heap s₁.env j sc hfind hget
  show ((interpreter.interpSucc (interpreter.interp n)).evalE
      (Expr.Assignment t e) s).1 = Res.ok v
  simp only [interpreter.interpSucc]
  rw [heval]
  dsimp only
  rw [hassign.1]

/-- Interpreter state with a single scope binding x to 1. -/
def sX : interpreter.State :=
  ⟨[⟨none, [("x", interpreter.Value.Number 1)]⟩], 0, []⟩

/-- Number literal token 5. -/
def fiveTok : token.Token := ⟨token.TokenType.Number 5, "5", 3⟩

/-- Identifier token x at line 3. -/
def xTok3 : token.Token := ⟨token.TokenType.Identifier, "x", 3⟩

/-- Witness for C10: with x bound, the assignment x = 5 evaluates to
Number 5. -/
theorem assignment_evaluates_to_assigned_value_witness :
    ((interpreter.interp 2).evalE (Expr.Assignment xTok3 (Expr.Literal fiveTok))
        sX).1 = Res.ok (interpreter.Value.Number 5) :=
  assignment_evaluates_to_assigned_value 1 sX xTok3 (Expr.Literal fiveTok)
    (interpreter.Value.Number 5) sX 0
    ⟨none, [("x", interpreter.Value.Number 1)]⟩ rfl rfl rfl
